import Mathlib

/-
  A verification development for the server-side RPC completion contract of
  src/rpc/rpc_context.h (class kudu::rpc::RpcContext).

  The repository fragment under study ships only the header: declarations of
  RpcContext plus documentation comments.  The implementation file is not part
  of the fragment, so the dynamic behaviour of the completion operations is
  modelled from the specification (each such definition carries a doc comment
  starting with "Modelled from the spec:").  The static facts that the header
  itself fixes (signatures, const-qualification of the request view, the
  extension-id boundary documented at lines 85-86) are reflected directly.

  The model is a small operational semantics: protobuf messages live in a
  heap of cells addressed by pointers; an RpcContext holds the pointers it
  received at construction; a World carries the context lifecycle state
  (pending or completed), the heap, the transport-side pending-call handle
  and the metrics handle; every operation of the context is a constructor of
  CtxOp and is interpreted by the step function, which either produces the
  next world together with an observation, or reports a contract violation
  (double completion, use after destroy) as an explicit detectable value.
-/

namespace RpcCtx

/-- Serialized wire bytes. -/
abbrev Bytes := List Nat

/-- Modelled from the spec: a decoded protobuf message (google::protobuf::Message),
abstracted to the content it would serialize to. -/
structure ProtoMessage where
  content : Bytes
deriving DecidableEq

/-- Modelled from the spec: a lite protobuf message (google::protobuf::MessageLite),
the type of structured application-error payloads. -/
structure LiteMessage where
  content : Bytes
deriving DecidableEq

/-- Serialization of a full message: the wire bytes of its content. -/
def serializePB (m : ProtoMessage) : Bytes := m.content

/-- Deserialization of wire bytes back into a full message. -/
def deserializePB (b : Bytes) : ProtoMessage := ⟨b⟩

/-- Serialization of a lite message. -/
def serializeLite (m : LiteMessage) : Bytes := m.content

/-- Deserialization of wire bytes back into a lite message. -/
def deserializeLite (b : Bytes) : LiteMessage := ⟨b⟩

/-- Modelled from the spec: kudu::Status (util/status.h is outside the fragment),
reduced to the message it carries. -/
structure Status where
  message : String
deriving DecidableEq

/-- Modelled from the spec: the credentials of the remote user who made the call. -/
structure UserCredentials where
  user : String
deriving DecidableEq

/-- Modelled from the spec: a remote socket address (kudu::Sockaddr), host and port. -/
structure Sockaddr where
  host : String
  port : Nat
deriving DecidableEq

/-- Modelled from the spec: the error-category enumeration of the wire envelope.
ERROR_APPLICATION is the generic application-error category; the other
constructor stands for the framework's built-in error kinds. -/
inductive RpcErrorCodePB where
  | ERROR_APPLICATION
  | builtinKind (n : Nat)
deriving DecidableEq

/-- Modelled from the spec: the wire-level error envelope (ErrorStatusPB): a
category code, a textual message, and at most one schema-extension field keyed
by an extension id and carrying a serialized structured payload. -/
structure ErrorStatusPB where
  code : RpcErrorCodePB
  message : String
  ext : Option (Int × Bytes)
deriving DecidableEq

/-- Modelled from the spec: what the context hands to the pending-call handle
for transmission: either a serialized success payload or an error envelope. -/
inductive Outgoing where
  | success (payload : Bytes)
  | failure (env : ErrorStatusPB)
deriving DecidableEq

/-- Modelled from the spec: what the remote client observes for a completed
call: an OK status with the decoded response, or a RemoteError status carrying
the envelope's textual message. -/
inductive ClientOutcome where
  | Ok (resp : ProtoMessage)
  | RemoteError (msg : String)
deriving DecidableEq

/-- Modelled from the spec: the client-side decoding of a transmission. -/
def clientView : Outgoing → ClientOutcome
  | .success b => .Ok (deserializePB b)
  | .failure env => .RemoteError env.message

/-- Modelled from the spec: the transport-layer pending-call handle
(rpc::InboundCall, outside the fragment).  It sources the caller identity,
the remote address and the trace buffer, records every transmission the
context hands to it, and absorbs transport failures internally (counting
them when the connection is already closed). -/
structure InboundCall where
  creds : UserCredentials
  addr : Sockaddr
  traceId : Nat
  connOpen : Bool
  sent : List Outgoing
  droppedCount : Nat
deriving DecidableEq

/-- Modelled from the spec: the handle's transmit operation.  The outgoing
payload is always accepted from the context; if the connection is already
closed the failure is only counted, never surfaced to the caller. -/
def transmit (c : InboundCall) (o : Outgoing) : InboundCall :=
  { c with
    sent := o :: c.sent
    droppedCount := c.droppedCount + (if c.connOpen then 0 else 1) }

/-- Modelled from the spec: the metrics handle (RpcMethodMetrics from
rpc/service_if.h, outside the fragment), reduced to completion counters. -/
structure RpcMethodMetrics where
  successCount : Nat
  failureCount : Nat
deriving DecidableEq

/-- A heap address for a protobuf object. -/
abbrev Ptr := Nat

/-- A heap cell: whether the object is still alive, and its current content.
A freed cell keeps its last content but is flagged dead, the way a guarded
or sanitized test build tracks use-after-free. -/
structure HeapCell where
  alive : Bool
  msg : ProtoMessage
deriving DecidableEq

/-- The heap of protobuf objects, an association list from addresses to cells. -/
abbrev Heap := List (Ptr × HeapCell)

/-- Look up the cell stored at an address. -/
def heapFind : Heap → Ptr → Option HeapCell
  | [], _ => none
  | (q, c) :: t, p => if q = p then some c else heapFind t p

/-- Free the object at an address: flag its cell dead, keep the content. -/
def heapFree : Heap → Ptr → Heap
  | [], _ => []
  | (q, c) :: t, p =>
    if q = p then (q, { c with alive := false }) :: heapFree t p
    else (q, c) :: heapFree t p

/-- Overwrite the content of the object at an address (the handler mutating
the response object in place through the view returned by response_pb). -/
def heapWrite : Heap → Ptr → ProtoMessage → Heap
  | [], _, _ => []
  | (q, c) :: t, p, m =>
    if q = p then (q, { c with msg := m }) :: heapWrite t p m
    else (q, c) :: heapWrite t p m

/-- The raw content recorded at an address, ignoring liveness. -/
def heapMsg (h : Heap) (p : Ptr) : Option ProtoMessage :=
  (heapFind h p).map HeapCell.msg

/-- The lifecycle of a context: pending until a completion operation runs,
then completed (the object destroyed). -/
inductive Life where
  | pending
  | completed
deriving DecidableEq

/-- The fields the RpcContext stores at construction: the addresses of the
request and response objects it owns (src/rpc/rpc_context.h lines 120-121). -/
structure RpcContext where
  request_pb_ : Ptr
  response_pb_ : Ptr
deriving DecidableEq

/-- The world a context lives in: its lifecycle state, the heap of protobuf
objects, the context's stored fields, the transport-owned pending-call handle
and the shared metrics handle (both of which outlive the context). -/
structure World where
  life : Life
  heap : Heap
  ctx : RpcContext
  call : InboundCall
  metrics : RpcMethodMetrics
deriving DecidableEq

/-- Dereference a protobuf object through the context: valid only while the
context is pending and the cell is alive; otherwise the access is invalid. -/
def deref (w : World) (p : Ptr) : Option ProtoMessage :=
  match w.life with
  | .completed => none
  | .pending =>
    match heapFind w.heap p with
    | some c => if c.alive then some c.msg else none
    | none => none

/-- Modelled from the spec: construction of an RpcContext by the dispatch
layer.  It stores the pending-call handle and the addresses of the request
and response objects; it copies no payload and leaves the heap untouched. -/
def construct (call : InboundCall) (reqPtr respPtr : Ptr)
    (metrics : RpcMethodMetrics) (h : Heap) : World :=
  { life := .pending
    heap := h
    ctx := { request_pb_ := reqPtr, response_pb_ := respPtr }
    call := call
    metrics := metrics }

/-- The operations a handler can invoke on the context: the six accessors
declared in the header, the in-place mutation of the response object through
the view returned by response_pb, and the three completion operations. -/
inductive CtxOp where
  | trace
  | user_credentials
  | remote_address
  | requestor_string
  | request_pb
  | response_pb
  | writeResponse (m : ProtoMessage)
  | RespondSuccess
  | RespondFailure (status : Status)
  | RespondApplicationError (error_ext_id : Int) (message : String)
      (app_error_pb : LiteMessage)
deriving DecidableEq

/-- What an operation returns to the handler.  The request view is
const-qualified in the header (a read-only view); the response view is
mutable.  Completion operations return nothing. -/
inductive Obs where
  | unit
  | constMsgView (p : Ptr)
  | msgView (p : Ptr)
  | traceRef (t : Nat)
  | credsVal (c : UserCredentials)
  | addrVal (a : Sockaddr)
  | strVal (s : String)
deriving DecidableEq

/-- A contract violation, made an explicit detectable outcome of the model:
invoking a second completion operation, or touching the context after a
completion operation destroyed it. -/
inductive Violation where
  | doubleCompletion
  | useAfterDestroy
deriving DecidableEq

/-- Whether an operation is one of the three completion operations. -/
def IsCompletion : CtxOp → Bool
  | .RespondSuccess => true
  | .RespondFailure _ => true
  | .RespondApplicationError _ _ _ => true
  | _ => false

/-- Whether an operation is one of the six read-only accessors. -/
def IsAccessor : CtxOp → Bool
  | .trace => true
  | .user_credentials => true
  | .remote_address => true
  | .requestor_string => true
  | .request_pb => true
  | .response_pb => true
  | _ => false

/-- Modelled from the spec: the requestor string combines the user info and
the remote address, suitable for log messages. -/
def requestorString (c : InboundCall) : String :=
  c.creds.user ++ " at " ++ c.addr.host ++ ":" ++ toString c.addr.port

/-- Modelled from the spec: destroying the context after completion: the
lifecycle moves to completed and the request and response objects are freed. -/
def finalize (w : World) : World :=
  { w with
    life := .completed
    heap := heapFree (heapFree w.heap w.ctx.request_pb_) w.ctx.response_pb_ }

/-- The boundary the header documents at lines 85-86 for extension ids: a
valid user-defined error extension id is an integer greater than 101. -/
def validErrorExtId (id : Int) : Bool := 101 < id

/-- Modelled from the spec: the operational semantics of the context.  An
accessor on a pending context returns its observation and leaves the world
unchanged; a completion operation on a pending context hands the outgoing
payload or envelope to the pending-call handle, updates the metrics handle
and destroys the context; any operation on a completed (destroyed) context
is a detectable contract violation, never silent corruption. -/
def step (op : CtxOp) (w : World) : Except Violation (World × Obs) :=
  match w.life with
  | .completed =>
    if IsCompletion op then .error .doubleCompletion else .error .useAfterDestroy
  | .pending =>
    match op with
    | .trace => .ok (w, .traceRef w.call.traceId)
    | .user_credentials => .ok (w, .credsVal w.call.creds)
    | .remote_address => .ok (w, .addrVal w.call.addr)
    | .requestor_string => .ok (w, .strVal (requestorString w.call))
    | .request_pb => .ok (w, .constMsgView w.ctx.request_pb_)
    | .response_pb => .ok (w, .msgView w.ctx.response_pb_)
    | .writeResponse m =>
      .ok ({ w with heap := heapWrite w.heap w.ctx.response_pb_ m }, .unit)
    | .RespondSuccess =>
      let m := (deref w w.ctx.response_pb_).getD ⟨[]⟩
      let w' := finalize w
      .ok ({ w' with
               call := transmit w.call (.success (serializePB m))
               metrics := { w.metrics with
                              successCount := w.metrics.successCount + 1 } },
           .unit)
    | .RespondFailure status =>
      let env : ErrorStatusPB :=
        { code := .ERROR_APPLICATION, message := status.message, ext := none }
      let w' := finalize w
      .ok ({ w' with
               call := transmit w.call (.failure env)
               metrics := { w.metrics with
                              failureCount := w.metrics.failureCount + 1 } },
           .unit)
    | .RespondApplicationError id msg pl =>
      let env : ErrorStatusPB :=
        { code := .ERROR_APPLICATION, message := msg
          ext := some (id, serializeLite pl) }
      let w' := finalize w
      .ok ({ w' with
               call := transmit w.call (.failure env)
               metrics := { w.metrics with
                              failureCount := w.metrics.failureCount + 1 } },
           .unit)

/-- Run a sequence of operations, threading the world and dropping the
observations; a violation aborts the run. -/
def runOps : List CtxOp → World → Except Violation World
  | [], w => .ok w
  | op :: t, w =>
    match step op w with
    | .ok (w', _) => runOps t w'
    | .error e => .error e

/-- A concrete pending-call handle for witnesses. -/
def egCall : InboundCall :=
  { creds := ⟨"alice"⟩, addr := ⟨"127.0.0.1", 5000⟩, traceId := 42
    connOpen := true, sent := [], droppedCount := 0 }

/-- A concrete heap: the request object at address 1 with content [7], the
response object at address 2, initially empty. -/
def egHeap : Heap := [(1, ⟨true, ⟨[7]⟩⟩), (2, ⟨true, ⟨[]⟩⟩)]

/-- A concrete freshly constructed pending world for witnesses. -/
def egWorld : World := construct egCall 1 2 ⟨0, 0⟩ egHeap

/-- A pending-call handle whose connection is already closed. -/
def egCallClosed : InboundCall := { egCall with connOpen := false }

/-- A pending world whose underlying connection is already closed. -/
def egWorldClosed : World := construct egCallClosed 1 2 ⟨0, 0⟩ egHeap

/-- Whether the object at an address is currently alive. -/
def cellAlive (h : Heap) (p : Ptr) : Bool :=
  ((heapFind h p).map HeapCell.alive).getD false

/-- Freeing an object never changes any recorded content, it only flips the
liveness flag. -/
theorem heapMsg_free (h : Heap) (q p : Ptr) :
    heapMsg (heapFree h q) p = heapMsg h p := by
  induction h with
  | nil => rfl
  | cons a t ih =>
    obtain ⟨a1, a2⟩ := a
    by_cases h1 : a1 = q
    · subst h1
      by_cases h2 : a1 = p
      · subst h2
        simp [heapFree, heapMsg, heapFind]
      · simpa [heapFree, heapMsg, heapFind, h2] using ih
    · by_cases h2 : a1 = p
      · subst h2
        simp [heapFree, heapMsg, heapFind, h1]
      · simpa [heapFree, heapMsg, heapFind, h1, h2] using ih

/-- Freeing an object kills it, and leaves the liveness of every other
object unchanged. -/
theorem cellAlive_free (h : Heap) (q p : Ptr) :
    cellAlive (heapFree h q) p = if p = q then false else cellAlive h p := by
  induction h with
  | nil => by_cases hq : p = q <;> simp [heapFree, cellAlive, heapFind, hq]
  | cons a t ih =>
    obtain ⟨a1, a2⟩ := a
    by_cases h1 : a1 = q
    · subst h1
      by_cases h2 : a1 = p
      · subst h2
        simp [heapFree, cellAlive, heapFind]
      · simpa [heapFree, cellAlive, heapFind, h2, Ne.symm h2] using ih
    · by_cases h2 : a1 = p
      · subst h2
        simp [heapFree, cellAlive, heapFind, h1, Ne.symm h1]
      · simpa [heapFree, cellAlive, heapFind, h1, h2] using ih

/-- Writing through one address leaves the content at any other address
unchanged. -/
theorem heapMsg_write_ne (h : Heap) (q p : Ptr) (m : ProtoMessage)
    (hpq : p ≠ q) : heapMsg (heapWrite h q m) p = heapMsg h p := by
  induction h with
  | nil => rfl
  | cons a t ih =>
    obtain ⟨a1, a2⟩ := a
    by_cases h1 : a1 = q
    · subst h1
      have h2 : ¬a1 = p := fun hx => hpq (hx.symm)
      simpa [heapWrite, heapMsg, heapFind, h2] using ih
    · by_cases h2 : a1 = p
      · subst h2
        simp [heapWrite, heapMsg, heapFind, h1]
      · simpa [heapWrite, heapMsg, heapFind, h1, h2] using ih

/-- Writing through an address stores exactly the written content there. -/
theorem heapFind_write_self (h : Heap) (p : Ptr) (m : ProtoMessage)
    (c : HeapCell) (hc : heapFind h p = some c) :
    heapFind (heapWrite h p m) p = some { c with msg := m } := by
  induction h with
  | nil => cases hc
  | cons a t ih =>
    obtain ⟨a1, a2⟩ := a
    by_cases h2 : a1 = p
    · simp [heapFind, h2] at hc
      simp [heapWrite, heapFind, h2, hc]
    · simp [heapFind, h2] at hc
      simp [heapWrite, heapFind, h2]
      exact ih hc

/-- Every successful operation leaves the context's stored fields, in
particular the addresses of the owned request and response objects,
unchanged. -/
theorem ctx_of_step (op : CtxOp) (w w' : World) (o : Obs)
    (h : step op w = .ok (w', o)) : w'.ctx = w.ctx := by
  obtain ⟨l, hh, cx, cl, mt⟩ := w
  cases l
  case completed => cases op <;> simp [step, IsCompletion] at h
  case pending =>
    cases op <;>
      (injection h with h1; injection h1 with hw ho; rw [← hw]) <;>
      try rfl

/-- Running any sequence of operations leaves the context's stored fields
unchanged. -/
theorem ctx_of_runOps (ops : List CtxOp) (w w' : World)
    (h : runOps ops w = .ok w') : w'.ctx = w.ctx := by
  induction ops generalizing w with
  | nil =>
    unfold runOps at h
    injection h with h1
    rw [← h1]
  | cons op t ih =>
    unfold runOps at h
    cases hs : step op w with
    | ok q =>
      obtain ⟨w₁, o₁⟩ := q
      rw [hs] at h
      rw [ih w₁ h, ctx_of_step op w w₁ o₁ hs]
    | error e =>
      rw [hs] at h
      cases h

/-- A completion operation invoked on a pending context destroys it: the
resulting lifecycle state is completed. -/
theorem life_of_completion (c : CtxOp) (hc : IsCompletion c = true)
    (w w' : World) (o : Obs) (hp : w.life = .pending)
    (h : step c w = .ok (w', o)) : w'.life = .completed := by
  obtain ⟨l, hh, cx, cl, mt⟩ := w
  cases l
  case completed => exact absurd hp (by simp)
  case pending =>
    cases c <;> simp [IsCompletion] at hc <;>
      (injection h with h1; injection h1 with hw ho; rw [← hw]) <;>
      try rfl

/-- An accessor invoked on a pending context returns an observation and
leaves the world exactly as it was. -/
theorem step_accessor (a : CtxOp) (ha : IsAccessor a = true) (w : World)
    (hp : w.life = .pending) : ∃ o, step a w = .ok (w, o) := by
  obtain ⟨l, hh, cx, cl, mt⟩ := w
  cases l
  case completed => exact absurd hp (by simp)
  case pending =>
    cases a <;> simp [IsAccessor] at ha <;> exact ⟨_, rfl⟩

/-- C1: exactly one completion operation is legal over a context's lifetime:
once any first completion operation has succeeded, invoking any second
completion operation is never a legal transition of the context's state
machine and is reported as the detectable doubleCompletion violation rather
than silent corruption. -/
theorem completion_exactly_once (w : World) (c₁ c₂ : CtxOp)
    (h₁ : IsCompletion c₁ = true) (h₂ : IsCompletion c₂ = true)
    (hp : w.life = .pending) (w' : World) (o : Obs)
    (hstep : step c₁ w = .ok (w', o)) :
    step c₂ w' = .error .doubleCompletion := by
  have hl : w'.life = .completed := life_of_completion c₁ h₁ w w' o hp hstep
  obtain ⟨l', hh, cx, cl, mt⟩ := w'
  cases l'
  case pending => exact absurd hl (by simp)
  case completed =>
    cases c₂ <;> simp [IsCompletion] at h₂ <;> rfl

/-- C1 witness: on a concrete pending context, RespondSuccess succeeds and a
subsequent RespondFailure is the doubleCompletion violation. -/
theorem completion_exactly_once_w :
    ∃ w' o, step .RespondSuccess egWorld = .ok (w', o) ∧
      step (.RespondFailure { message := "boom" }) w' =
        .error .doubleCompletion :=
  ⟨_, _, rfl, completion_exactly_once egWorld .RespondSuccess
    (.RespondFailure { message := "boom" }) rfl rfl rfl _ _ rfl⟩

/-- C2: after the handler populates the response object, RespondSuccess hands
the pending-call handle exactly the serialization of that content, and the
transmitted payload deserializes to content bit-identical to what was written
into the response object before the call. -/
theorem respondSuccess_transmits_response (w : World) (m : ProtoMessage)
    (hp : w.life = .pending) (c : HeapCell)
    (hc : heapFind w.heap w.ctx.response_pb_ = some c) (ha : c.alive = true)
    (w₁ : World) (o₁ : Obs)
    (hw : step (.writeResponse m) w = .ok (w₁, o₁)) :
    ∃ w₂, step .RespondSuccess w₁ = .ok (w₂, .unit) ∧
      w₂.call.sent.head? = some (.success (serializePB m)) ∧
      deserializePB (serializePB m) = m := by
  obtain ⟨l, hh, cx, cl, mt⟩ := w
  cases l
  case completed => exact absurd hp (by simp)
  case pending =>
    injection hw with hw1
    injection hw1 with hww ho
    subst hww
    have hfind : heapFind (heapWrite hh cx.response_pb_ m) cx.response_pb_
        = some { c with msg := m } :=
      heapFind_write_self hh cx.response_pb_ m c hc
    have hd : deref
        { life := Life.pending, heap := heapWrite hh cx.response_pb_ m,
          ctx := cx, call := cl, metrics := mt }
        cx.response_pb_ = some m := by
      unfold deref
      rw [hfind]
      simp [ha]
    refine ⟨_, rfl, ?_, rfl⟩
    simp [hd, transmit]

/-- C2 witness: writing content into the response object of a concrete
pending context and calling RespondSuccess transmits exactly that content. -/
theorem respondSuccess_transmits_response_w :
    ∃ w₁ o₁, step (.writeResponse { content := [9, 9] }) egWorld = .ok (w₁, o₁) ∧
      ∃ w₂, step .RespondSuccess w₁ = .ok (w₂, .unit) ∧
        w₂.call.sent.head? = some (.success (serializePB { content := [9, 9] })) ∧
        deserializePB (serializePB { content := [9, 9] }) = { content := [9, 9] } :=
  ⟨_, _, rfl, respondSuccess_transmits_response egWorld { content := [9, 9] } rfl
    { alive := true, msg := { content := [] } } rfl rfl _ _ rfl⟩

/-- C3: for every status value, RespondFailure transmits an error envelope
whose category code is the generic ERROR_APPLICATION, whose message equals
the status's message, and which carries no structured extension field. -/
theorem respondFailure_generic_envelope (w : World) (status : Status)
    (hp : w.life = .pending) :
    ∃ w', step (.RespondFailure status) w = .ok (w', .unit) ∧
      w'.call.sent.head? = some (.failure
        { code := .ERROR_APPLICATION, message := status.message, ext := none }) := by
  obtain ⟨l, hh, cx, cl, mt⟩ := w
  cases l
  case completed => exact absurd hp (by simp)
  case pending => exact ⟨_, rfl, rfl⟩

/-- C3 witness: RespondFailure on a concrete pending context transmits the
generic application-error envelope with the status message and no extension. -/
theorem respondFailure_generic_envelope_w :
    ∃ w', step (.RespondFailure { message := "oops" }) egWorld = .ok (w', .unit) ∧
      w'.call.sent.head? = some (.failure
        { code := .ERROR_APPLICATION, message := "oops", ext := none }) :=
  respondFailure_generic_envelope egWorld { message := "oops" } rfl

/-- C4: for every extension id, message and structured payload,
RespondApplicationError transmits an envelope whose text equals the message
and whose extension field keyed by the id deserializes to a payload equal to
the given payload; the client observes a RemoteError status carrying the
message. -/
theorem respondApplicationError_envelope (w : World) (id : Int) (msg : String)
    (pl : LiteMessage) (hp : w.life = .pending) :
    ∃ w' env, step (.RespondApplicationError id msg pl) w = .ok (w', .unit) ∧
      w'.call.sent.head? = some (.failure env) ∧
      env.message = msg ∧
      env.ext = some (id, serializeLite pl) ∧
      deserializeLite (serializeLite pl) = pl ∧
      clientView (.failure env) = .RemoteError msg := by
  obtain ⟨l, hh, cx, cl, mt⟩ := w
  cases l
  case completed => exact absurd hp (by simp)
  case pending => exact ⟨_, _, rfl, rfl, rfl, rfl, rfl, rfl⟩

/-- C4 witness: the spec's scenario, extension id 150 with message "quota
exceeded" and a structured payload, echoed bit-identically in the envelope. -/
theorem respondApplicationError_envelope_w :
    ∃ w' env, step (.RespondApplicationError 150 "quota exceeded"
        { content := [30] }) egWorld = .ok (w', .unit) ∧
      w'.call.sent.head? = some (.failure env) ∧
      env.message = "quota exceeded" ∧
      env.ext = some (150, serializeLite { content := [30] }) ∧
      deserializeLite (serializeLite { content := [30] }) = { content := [30] } ∧
      clientView (.failure env) = .RemoteError "quota exceeded" :=
  respondApplicationError_envelope egWorld 150 "quota exceeded"
    { content := [30] } rfl

/-- C5: after any completion operation returns, the context and both owned
protobuf objects are destroyed synchronously: the lifecycle is completed,
dereferencing the request or response through the context yields nothing,
both heap cells are dead, and every subsequent accessor invocation is the
detectable useAfterDestroy violation. -/
theorem completion_destroys (w : World) (c : CtxOp) (hc : IsCompletion c = true)
    (hp : w.life = .pending) (w' : World) (o : Obs)
    (hstep : step c w = .ok (w', o)) :
    w'.life = .completed ∧
    deref w' w.ctx.request_pb_ = none ∧
    deref w' w.ctx.response_pb_ = none ∧
    cellAlive w'.heap w.ctx.request_pb_ = false ∧
    cellAlive w'.heap w.ctx.response_pb_ = false ∧
    ∀ a, IsAccessor a = true → step a w' = .error .useAfterDestroy := by
  obtain ⟨l, hh, cx, cl, mt⟩ := w
  cases l
  case completed => exact absurd hp (by simp)
  case pending =>
    cases c <;> simp [IsCompletion] at hc <;>
      (injection hstep with h1; injection h1 with hww ho; subst hww;
       refine ⟨rfl, rfl, rfl, ?_, ?_, ?_⟩) <;>
      first
        | (intro a haa; cases a <;> simp [IsAccessor] at haa <;> rfl)
        | simp [finalize, cellAlive_free]

/-- C5 witness: on a concrete context, RespondSuccess completes the context,
both payload objects are dead, and a subsequent accessor is a violation. -/
theorem completion_destroys_w :
    ∃ w' o, step .RespondSuccess egWorld = .ok (w', o) ∧
      w'.life = .completed ∧
      deref w' egWorld.ctx.request_pb_ = none ∧
      deref w' egWorld.ctx.response_pb_ = none ∧
      cellAlive w'.heap egWorld.ctx.request_pb_ = false ∧
      cellAlive w'.heap egWorld.ctx.response_pb_ = false ∧
      step .request_pb w' = .error .useAfterDestroy := by
  refine ⟨_, _, rfl, ?_⟩
  have H := completion_destroys egWorld .RespondSuccess rfl rfl _ _ rfl
  exact ⟨H.1, H.2.1, H.2.2.1, H.2.2.2.1, H.2.2.2.2.1,
    H.2.2.2.2.2 .request_pb rfl⟩

/-- C6: no completion operation ever surfaces an error to the handler: on a
pending context each returns no value and succeeds for every input and every
transport state; a closed connection is absorbed by the pending-call handle,
which only counts the dropped transmission. -/
theorem completion_never_fails (w : World) (c : CtxOp)
    (hc : IsCompletion c = true) (hp : w.life = .pending) :
    ∃ w', step c w = .ok (w', .unit) ∧
      (w.call.connOpen = false →
        w'.call.droppedCount = w.call.droppedCount + 1) := by
  obtain ⟨l, hh, cx, cl, mt⟩ := w
  cases l
  case completed => exact absurd hp (by simp)
  case pending =>
    cases c <;> simp [IsCompletion] at hc <;>
      exact ⟨_, rfl, fun hconn => by
        have hcc : cl.connOpen = false := hconn
        simp [transmit, hcc]⟩

/-- C6 witness: completing a concrete context whose connection is already
closed still succeeds, and the handle counts the dropped transmission. -/
theorem completion_never_fails_w :
    ∃ w', step (.RespondFailure { message := "late" }) egWorldClosed =
        .ok (w', .unit) ∧
      (egWorldClosed.call.connOpen = false →
        w'.call.droppedCount = egWorldClosed.call.droppedCount + 1) :=
  completion_never_fails egWorldClosed (.RespondFailure { message := "late" })
    rfl rfl

/-- C7: the request payload is never mutated: every operation of the context
preserves the request object's recorded content, no operation hands the
handler a mutable view of the request object, and the request's view is
exposed only by the read-only accessor request_pb. -/
theorem request_read_only (w : World) (op : CtxOp)
    (hne : w.ctx.request_pb_ ≠ w.ctx.response_pb_)
    (w' : World) (o : Obs) (hstep : step op w = .ok (w', o)) :
    heapMsg w'.heap w.ctx.request_pb_ = heapMsg w.heap w.ctx.request_pb_ ∧
    o ≠ .msgView w.ctx.request_pb_ ∧
    (o = .constMsgView w.ctx.request_pb_ → op = .request_pb) := by
  obtain ⟨l, hh, cx, cl, mt⟩ := w
  cases l
  case completed => cases op <;> simp [step, IsCompletion] at hstep
  case pending =>
    cases op <;>
      (injection hstep with h1; injection h1 with hww ho;
       subst hww; subst ho; refine ⟨?_, ?_, ?_⟩) <;>
      first
        | rfl
        | exact heapMsg_write_ne hh cx.response_pb_ cx.request_pb_ _ hne
        | exact (heapMsg_free _ _ _).trans (heapMsg_free _ _ _)
        | (intro heq; injection heq with e; exact hne e.symm)
        | (intro _; rfl)
        | (intro heq; simp at heq)

/-- C7 witness: mutating the response object of a concrete context leaves
the request object's content untouched and exposes no mutable request view. -/
theorem request_read_only_w :
    ∃ w' o, step (.writeResponse { content := [5] }) egWorld = .ok (w', o) ∧
      heapMsg w'.heap egWorld.ctx.request_pb_ =
        heapMsg egWorld.heap egWorld.ctx.request_pb_ ∧
      o ≠ .msgView egWorld.ctx.request_pb_ ∧
      (o = .constMsgView egWorld.ctx.request_pb_ →
        CtxOp.writeResponse { content := [5] } = .request_pb) :=
  ⟨_, _, rfl, request_read_only egWorld (.writeResponse { content := [5] })
    (by decide) _ _ rfl⟩

/-- C8: construction takes ownership of the request and response objects
without copying them (the heap is exactly the one supplied, and the context
stores the supplied addresses), and for the whole pending lifetime request_pb
and response_pb return non-owning views of exactly the objects supplied at
construction. -/
theorem construction_identity (call : InboundCall) (reqPtr respPtr : Ptr)
    (met : RpcMethodMetrics) (h : Heap) :
    (construct call reqPtr respPtr met h).heap = h ∧
    (construct call reqPtr respPtr met h).ctx =
      { request_pb_ := reqPtr, response_pb_ := respPtr } ∧
    ∀ ops w', runOps ops (construct call reqPtr respPtr met h) = .ok w' →
      w'.life = .pending →
      step .request_pb w' = .ok (w', .constMsgView reqPtr) ∧
      step .response_pb w' = .ok (w', .msgView respPtr) := by
  refine ⟨rfl, rfl, ?_⟩
  intro ops w' hrun hlife
  have hctx : w'.ctx = { request_pb_ := reqPtr, response_pb_ := respPtr } :=
    ctx_of_runOps ops _ w' hrun
  obtain ⟨l, hh, cx, cl, mt⟩ := w'
  cases l
  case completed => exact absurd hlife (by simp)
  case pending =>
    have hcx : cx = { request_pb_ := reqPtr, response_pb_ := respPtr } := hctx
    subst hcx
    exact ⟨rfl, rfl⟩

/-- C8 witness: on a concrete construction, the heap is untouched, and after
a run of accessor operations the views still name the supplied addresses. -/
theorem construction_identity_w :
    (construct egCall 1 2 { successCount := 0, failureCount := 0 } egHeap).heap
      = egHeap ∧
    ∃ w', runOps [.trace, .request_pb]
        (construct egCall 1 2 { successCount := 0, failureCount := 0 } egHeap)
        = .ok w' ∧
      step .request_pb w' = .ok (w', .constMsgView 1) ∧
      step .response_pb w' = .ok (w', .msgView 2) := by
  have H := construction_identity egCall 1 2
    { successCount := 0, failureCount := 0 } egHeap
  exact ⟨H.1, _, rfl, H.2.2 [.trace, .request_pb] _ rfl rfl⟩

/-- C9: a valid error extension id is exactly an integer strictly greater
than the reserved boundary 101 documented in the header, and the context
enforces neither this bound nor uniqueness: RespondApplicationError succeeds
for every integer id and only echoes the tag into the envelope. -/
theorem extension_id_echoed (w : World) (id : Int) (msg : String)
    (pl : LiteMessage) (hp : w.life = .pending) :
    (∀ n : Int, validErrorExtId n = true ↔ 101 < n) ∧
    ∃ w', step (.RespondApplicationError id msg pl) w = .ok (w', .unit) ∧
      w'.call.sent.head? = some (.failure
        { code := .ERROR_APPLICATION, message := msg
          ext := some (id, serializeLite pl) }) := by
  refine ⟨fun n => by simp [validErrorExtId], ?_⟩
  obtain ⟨l, hh, cx, cl, mt⟩ := w
  cases l
  case completed => exact absurd hp (by simp)
  case pending => exact ⟨_, rfl, rfl⟩

/-- C9 witness: id 150 is valid, id 5 is below the reserved boundary, yet the
context still succeeds with id 5 and echoes it into the envelope unchanged. -/
theorem extension_id_echoed_w :
    validErrorExtId 150 = true ∧
    validErrorExtId 5 = false ∧
    ∃ w', step (.RespondApplicationError 5 "not registered" { content := [1] })
        egWorld = .ok (w', .unit) ∧
      w'.call.sent.head? = some (.failure
        { code := .ERROR_APPLICATION, message := "not registered"
          ext := some (5, serializeLite { content := [1] }) }) :=
  ⟨by decide, by decide,
    (extension_id_echoed egWorld 5 "not registered" { content := [1] } rfl).2⟩

/-- C10: any sequence of the six accessor operations on a pending context
leaves the context pending and entirely unchanged: accessors never complete
the call, never destroy the context and never alter which objects it owns;
the run returns the very same world. -/
theorem accessors_frame (ops : List CtxOp) (w : World)
    (hacc : ∀ op ∈ ops, IsAccessor op = true) (hp : w.life = .pending) :
    runOps ops w = .ok w := by
  induction ops with
  | nil => rfl
  | cons op t ih =>
    obtain ⟨o, ho⟩ := step_accessor op (hacc op (List.mem_cons_self op t)) w hp
    simp only [runOps]
    rw [ho]
    exact ih fun x hx => hacc x (List.mem_cons_of_mem op hx)

/-- C10 witness: running all six accessors on a concrete pending context
returns exactly the same world. -/
theorem accessors_frame_w :
    runOps [.trace, .user_credentials, .remote_address, .requestor_string,
      .request_pb, .response_pb] egWorld = .ok egWorld :=
  accessors_frame _ egWorld (by decide) rfl

end RpcCtx
